import Mathlib

/-!
Shallow embedding of the proxypunch NAT-traversal engine (the `client` and
`server` functions of the source's `main` package), together with theorems
checking the specification's claims about it.

Conventions of the embedding:
* time is modelled in milliseconds as `Nat` (`flushInterval = 10000`);
* datagram payloads are `List Nat` of byte values;
* Go maps are modelled as association lists with insert-or-replace update;
* each loop iteration of the source becomes a pure step function from the
  loop state and the received input to the new state plus a list of effects.
-/

namespace ProxyPunch

/-- One byte of a datagram, as a natural number (< 256 on the wire). -/
abbrev Byte := Nat

/-- The data-plane tag byte for application data (`0xCC` in the source). -/
def tagData : Byte := 0xCC

/-- The hole-punch keepalive tag byte (`0xCD` in the source). -/
def tagPunch : Byte := 0xCD

/-- `flushInterval = 10 * time.Second`, in milliseconds. -/
def flushInterval : Nat := 10000

/-- An IP address: IPv4 as four bytes, or IPv6 as sixteen bytes. -/
inductive IP where
  | v4 (a b c d : Byte)
  | v6 (bytes : List Byte)
  deriving DecidableEq, Repr

/-- Membership in `localIpv4` (`127.0.0.0/8`) or `localIpv6` (`fc00::/7`)
from the source: the loopback / local classification of a source address. -/
def IP.isLocal : IP → Bool
  | .v4 a _ _ _ => a == 127
  | .v6 bs =>
    match bs.head? with
    | some b => b &&& 0xFE == 0xFC
    | none => false

/-- A UDP endpoint (`net.UDPAddr`): IP address plus port. -/
structure Addr where
  ip : IP
  port : Nat
  deriving DecidableEq, Repr

/-- `addrKey` from the source: a 4-byte IPv4 plus a port, the key type of the
server's `mappings` and `peers` maps. -/
structure addrKey where
  ip0 : Byte
  ip1 : Byte
  ip2 : Byte
  ip3 : Byte
  port : Nat
  deriving DecidableEq, Repr

/-- `addrKey.toUDP` from the source. -/
def addrKey.toUDP (k : addrKey) : Addr :=
  ⟨.v4 k.ip0 k.ip1 k.ip2 k.ip3, k.port⟩

/-- Association-list update modelling Go `m[k] = v` (insert or replace). -/
def mapInsert {K V : Type} [DecidableEq K] (k : K) (v : V) :
    List (K × V) → List (K × V)
  | [] => [(k, v)]
  | (k0, v0) :: rest =>
      if k0 = k then (k, v) :: rest else (k0, v0) :: mapInsert k v rest

/-- Association-list lookup modelling Go `m[k]`. -/
def mapLookup {K V : Type} [DecidableEq K] (k : K) :
    List (K × V) → Option V
  | [] => none
  | (k0, v0) :: rest => if k0 = k then some v0 else mapLookup k rest

/-- Association-list removal modelling Go `delete(m, k)`. -/
def mapErase {K V : Type} [DecidableEq K] (k : K) :
    List (K × V) → List (K × V)
  | [] => []
  | (k0, v0) :: rest =>
      if k0 = k then mapErase k rest else (k0, v0) :: mapErase k rest

/-- A UDP send on the public socket: payload bytes and destination endpoint. -/
structure Send where
  payload : List Byte
  dest : Addr
  deriving DecidableEq, Repr

/-! ## Client forwarding plane (source `client`, main loop) -/

/-- Client forwarding-loop state: the `foundPeer` flag and `localAddr`, the
most recent loopback source; its zero value (port `0`) means not yet set. -/
structure ClientState where
  foundPeer : Bool
  localAddr : Addr
  deriving DecidableEq, Repr

/-- Result of one client forwarding iteration: new state, datagrams sent
on the socket, and whether the oversize warning was printed. -/
structure ClientStep where
  state : ClientState
  sends : List Send
  warnSize : Bool
  deriving DecidableEq, Repr

/-- One iteration of the client main forwarding loop (after port learning),
mirroring the source: drop oversize datagrams with a warning, skip relay
datagrams, treat datagrams from the remote endpoint as framed peer data
(forward the payload after the `0xCC` tag to `localAddr` when it is set),
and treat loopback-sourced datagrams as application output (record the
source in `localAddr` and send the `0xCC`-tagged payload to the remote). -/
def clientForwardStep (relayAddr remoteAddr : Addr) (st : ClientState)
    (src : Addr) (payload : List Byte) : ClientStep :=
  if payload.length > 4095 then
    { state := st, sends := [], warnSize := true }
  else if src = relayAddr then
    { state := st, sends := [], warnSize := false }
  else if src = remoteAddr then
    let st1 : ClientState := { st with foundPeer := true }
    if payload.length ≠ 0 ∧ st.localAddr.port ≠ 0 ∧
        payload.head? = some tagData then
      { state := st1, sends := [⟨payload.tail, st.localAddr⟩],
        warnSize := false }
    else
      { state := st1, sends := [], warnSize := false }
  else if src.ip.isLocal then
    { state := { st with localAddr := src },
      sends := [⟨tagData :: payload, remoteAddr⟩], warnSize := false }
  else
    { state := st, sends := [], warnSize := false }

/-- C3: in the client role, a payload `P` with `1 ≤ |P| ≤ 4095` from a
loopback source (distinct from the relay and remote endpoints) is sent as
`0xCC ++ P` to the remote endpoint with `local_endpoint` set to the source;
a datagram from the remote endpoint whose first byte is `0xCC`, when
`local_endpoint` is set and the datagram is non-empty, delivers exactly the
bytes after the tag to `local_endpoint`; and a datagram from the remote
endpoint whose first byte is not `0xCC` is never forwarded locally. -/
theorem client_forwarding_round_trip
    (relayAddr remoteAddr : Addr) (st : ClientState) (src : Addr)
    (payload : List Byte) :
    (src.ip.isLocal = true → src ≠ relayAddr → src ≠ remoteAddr →
      1 ≤ payload.length → payload.length ≤ 4095 →
      clientForwardStep relayAddr remoteAddr st src payload =
        { state := { st with localAddr := src },
          sends := [⟨tagData :: payload, remoteAddr⟩], warnSize := false }) ∧
    (src = remoteAddr → src ≠ relayAddr → payload.length ≤ 4095 →
      payload ≠ [] → st.localAddr.port ≠ 0 → payload.head? = some tagData →
      (clientForwardStep relayAddr remoteAddr st src payload).sends =
        [⟨payload.tail, st.localAddr⟩]) ∧
    (src = remoteAddr → src ≠ relayAddr → payload.head? ≠ some tagData →
      (clientForwardStep relayAddr remoteAddr st src payload).sends = []) := by
  refine ⟨?_, ?_, ?_⟩
  · intro hLocal hRel hRem hLen hMax
    simp [clientForwardStep, hRel, hRem, hLocal, Nat.not_lt.mpr hMax]
  · intro hRem hRel hMax hNe hPort hHead
    subst hRem
    have hLen : payload.length ≠ 0 := fun h =>
      hNe (List.eq_nil_of_length_eq_zero h)
    simp [clientForwardStep, hRel, Nat.not_lt.mpr hMax, hLen, hPort, hHead]
  · intro hRem hRel hHead
    subst hRem
    by_cases hMax : payload.length > 4095
    · simp [clientForwardStep, hMax]
    · simp [clientForwardStep, hRel, hMax, hHead]

/-- Witness for C3 at concrete inputs: a 2-byte loopback payload is tagged
and forwarded, a tagged peer datagram is untagged and delivered, and an
untagged (`0xCD`) peer datagram produces no send. -/
theorem client_forwarding_round_trip_witness :
    (clientForwardStep ⟨.v4 5 6 7 8, 14762⟩ ⟨.v4 203 0 113 7, 50000⟩
        ⟨false, ⟨.v4 127 0 0 1, 62000⟩⟩ ⟨.v4 127 0 0 1, 62000⟩ [1, 2] =
      { state := ⟨false, ⟨.v4 127 0 0 1, 62000⟩⟩,
        sends := [⟨[0xCC, 1, 2], ⟨.v4 203 0 113 7, 50000⟩⟩],
        warnSize := false }) ∧
    ((clientForwardStep ⟨.v4 5 6 7 8, 14762⟩ ⟨.v4 203 0 113 7, 50000⟩
        ⟨false, ⟨.v4 127 0 0 1, 62000⟩⟩ ⟨.v4 203 0 113 7, 50000⟩
        [0xCC, 80, 105]).sends =
      [⟨[80, 105], ⟨.v4 127 0 0 1, 62000⟩⟩]) ∧
    ((clientForwardStep ⟨.v4 5 6 7 8, 14762⟩ ⟨.v4 203 0 113 7, 50000⟩
        ⟨false, ⟨.v4 127 0 0 1, 62000⟩⟩ ⟨.v4 203 0 113 7, 50000⟩
        [0xCD]).sends = []) := by
  refine ⟨?_, ?_, ?_⟩
  · exact (client_forwarding_round_trip _ _ _ _ _).1 (by decide) (by decide)
      (by decide) (by decide) (by decide)
  · exact (client_forwarding_round_trip _ _ _ _ _).2.1 rfl (by decide)
      (by decide) (by decide) (by decide) rfl
  · exact (client_forwarding_round_trip _ _ _ _ _).2.2 rfl (by decide)
      (by decide)

/-! ## Client port-learning loop (source `client`, first receive loop) -/

/-- Outcome of one iteration of the client's port-learning loop: silently
skip a non-relay datagram, warn on a relay datagram of length ≠ 2, or learn
the remote port from a 2-byte big-endian relay reply and leave the loop. -/
inductive LearnStep where
  | skip
  | warn
  | learned (port : Nat)
  deriving DecidableEq, Repr

/-- One iteration of the client's port-learning loop, mirroring the source:
datagrams not from the relay are skipped, relay datagrams of length ≠ 2 are
discarded with a warning, and a 2-byte relay reply yields the remote port
as a big-endian 16-bit value and breaks the loop. -/
def clientLearnStep (relayAddr : Addr) (src : Addr) (payload : List Byte) :
    LearnStep :=
  if src ≠ relayAddr then .skip
  else
    match payload with
    | [b0, b1] => .learned (256 * b0 + b1)
    | _ => .warn

/-- The client's port-learning loop over a list of received datagrams:
returns the port learned from the first valid 2-byte relay reply, if any. -/
def clientLearn (relayAddr : Addr) : List (Addr × List Byte) → Option Nat
  | [] => none
  | (src, p) :: rest =>
    match clientLearnStep relayAddr src p with
    | .learned port => some port
    | _ => clientLearn relayAddr rest

/-! ## Server relay-receive loop (source `server`, relay receive goroutine) -/

/-- State of the server's relay receive goroutine: the `ipReceived` flag,
the decoded public IP once received, and the `mappings` table mapping each
announced endpoint to its last-advertised timestamp. -/
structure RelayRecvState where
  ipReceived : Bool
  publicIp : Option (List Byte)
  mappings : List (addrKey × Nat)
  deriving DecidableEq, Repr

/-- The XOR de-obfuscation of the relay reply's first four bytes
(`buffer[i] = v ^ 0xCC` in the source): the server's public IPv4. -/
def decodeXorIp (payload : List Byte) : List Byte :=
  (payload.take 4).map (fun b => b ^^^ 0xCC)

/-- Parse the 6-byte records of a relay frame after its 4 leading IP bytes:
each record is a 2-byte big-endian port followed by a 4-byte IPv4. -/
def parseRecords : List Byte → List addrKey
  | b0 :: b1 :: a :: b :: c :: d :: rest =>
      ⟨a, b, c, d, 256 * b0 + b1⟩ :: parseRecords rest
  | _ => []

/-- Insert each announced record into `mappings` with timestamp `now`
(`mappings[k] = time.Now()` in the source), left to right. -/
def insertRecords (now : Nat) (ks : List addrKey)
    (m : List (addrKey × Nat)) : List (addrKey × Nat) :=
  ks.foldl (fun acc k => mapInsert k now acc) m

/-- Result of one iteration of the relay receive loop: new state, whether
the wrong-size warning was printed, and whether the loop breaks. -/
structure RelayRecvStep where
  state : RelayRecvState
  warn : Bool
  brk : Bool
  deriving DecidableEq, Repr

/-- One iteration of the server's relay receive loop, mirroring the source:
skip non-relay datagrams; discard with a warning a relay frame whose length
is < 4 or not congruent to 4 mod 6; otherwise (on the first valid frame)
decode the public IP by XOR-ing the first four bytes with `0xCC`, insert
every 6-byte record into `mappings`, and break out of the loop. -/
def serverRelayStep (relayAddr : Addr) (st : RelayRecvState)
    (src : Addr) (payload : List Byte) (now : Nat) : RelayRecvStep :=
  if src ≠ relayAddr then ⟨st, false, false⟩
  else if payload.length < 4 ∨ payload.length % 6 ≠ 4 then ⟨st, true, false⟩
  else
    let st1 :=
      if st.ipReceived then st
      else { st with ipReceived := true,
                     publicIp := some (decodeXorIp payload) }
    ⟨{ st1 with
        mappings := insertRecords now (parseRecords (payload.drop 4))
          st1.mappings },
      false, true⟩

/-- Whether a received datagram is a valid relay frame for the server:
it comes from the relay endpoint, and its length is ≥ 4 and ≡ 4 (mod 6).
Exactly these frames make `serverRelayStep` break the receive loop. -/
def relayFrameHandled (relayAddr : Addr) (src : Addr)
    (payload : List Byte) : Bool :=
  decide (src = relayAddr ∧ 4 ≤ payload.length ∧ payload.length % 6 = 4)

/-- Evolution of the server's mapping table over the whole run, driven by
the received datagrams: the relay receive loop processes them until its
`break` on the first valid relay frame; after the break the goroutine has
exited and the main forwarding loop drops every relay-sourced datagram
without touching `mappings`, so the remaining inputs are ignored. -/
def serverRunMappings (relayAddr : Addr) (st : RelayRecvState) :
    List (Addr × List Byte × Nat) → RelayRecvState
  | [] => st
  | (src, p, now) :: rest =>
    let s := serverRelayStep relayAddr st src p now
    if s.brk then s.state else serverRunMappings relayAddr s.state rest

/-- An unhandled datagram leaves the relay receive loop's state unchanged
and does not break the loop. -/
lemma serverRelayStep_not_handled (relayAddr src : Addr)
    (st : RelayRecvState) (p : List Byte) (now : Nat)
    (h : relayFrameHandled relayAddr src p = false) :
    (serverRelayStep relayAddr st src p now).state = st ∧
    (serverRelayStep relayAddr st src p now).brk = false := by
  have h' := of_decide_eq_false h
  push_neg at h'
  unfold serverRelayStep
  by_cases h1 : src = relayAddr
  · have h2 : p.length < 4 ∨ p.length % 6 ≠ 4 := by
      rcases Nat.lt_or_ge p.length 4 with h3 | h3
      · exact Or.inl h3
      · exact Or.inr (h' h1 h3)
    simp [h1, h2]
  · simp [h1]

/-- A valid relay frame breaks the loop, having inserted exactly its
records into the mapping table. -/
lemma serverRelayStep_handled (relayAddr src : Addr)
    (st : RelayRecvState) (p : List Byte) (now : Nat)
    (h : relayFrameHandled relayAddr src p = true) :
    (serverRelayStep relayAddr st src p now).brk = true ∧
    (serverRelayStep relayAddr st src p now).state.mappings =
      insertRecords now (parseRecords (p.drop 4)) st.mappings := by
  have h' := of_decide_eq_true h
  obtain ⟨h1, h2, h3⟩ := h'
  have h4 : ¬ (p.length < 4 ∨ p.length % 6 ≠ 4) := by
    push_neg
    exact ⟨Nat.not_lt.mp (by omega), h3⟩
  unfold serverRelayStep
  by_cases hip : st.ipReceived <;> simp [h1, h4, hip]

/-- C1 counterexample: with the S2/S3 inputs — the relay first sends the
4-byte reply `[0xCE,0xCC,0xCC,0xCD]`, then a valid 10-byte frame carrying
the record for 198.51.100.9:10000 — the second frame is a valid relay
frame carrying exactly that record, yet after the run the mapping table
does not contain 198.51.100.9:10000, because the relay receive loop broke
after the first valid frame and the main loop drops relay datagrams. -/
theorem server_mapping_second_frame_dropped :
    relayFrameHandled ⟨.v4 5 6 7 8, 14762⟩ ⟨.v4 5 6 7 8, 14762⟩
      [0xCE, 0xCC, 0xCC, 0xCD, 0x27, 0x10, 198, 51, 100, 9] = true ∧
    parseRecords
      (List.drop 4 [0xCE, 0xCC, 0xCC, 0xCD, 0x27, 0x10, 198, 51, 100, 9]) =
      [⟨198, 51, 100, 9, 10000⟩] ∧
    mapLookup ⟨198, 51, 100, 9, 10000⟩
      (serverRunMappings ⟨.v4 5 6 7 8, 14762⟩ ⟨false, none, []⟩
        [(⟨.v4 5 6 7 8, 14762⟩, [0xCE, 0xCC, 0xCC, 0xCD], 1000),
         (⟨.v4 5 6 7 8, 14762⟩,
          [0xCE, 0xCC, 0xCC, 0xCD, 0x27, 0x10, 198, 51, 100, 9],
          1500)]).mappings = none := by
  decide

/-- C1 amended: only the first valid relay frame is ingested — every
6-byte record it carries is inserted into the mapping table with the
current timestamp, and every relay frame after it is ignored (the final
mapping table does not depend on the inputs after the first valid frame). -/
theorem server_mapping_first_frame_only (relayAddr : Addr)
    (st : RelayRecvState) (pre : List (Addr × List Byte × Nat))
    (src : Addr) (p : List Byte) (now : Nat)
    (rest : List (Addr × List Byte × Nat))
    (hpre : ∀ q ∈ pre, relayFrameHandled relayAddr q.1 q.2.1 = false)
    (hval : relayFrameHandled relayAddr src p = true) :
    serverRunMappings relayAddr st (pre ++ (src, p, now) :: rest) =
      (serverRelayStep relayAddr st src p now).state ∧
    (serverRelayStep relayAddr st src p now).state.mappings =
      insertRecords now (parseRecords (p.drop 4)) st.mappings := by
  refine ⟨?_, (serverRelayStep_handled relayAddr src st p now hval).2⟩
  induction pre with
  | nil =>
    have hb := (serverRelayStep_handled relayAddr src st p now hval).1
    simp [serverRunMappings, hb]
  | cons q pre ih =>
    obtain ⟨q1, q2, q3⟩ := q
    have hq := hpre (q1, q2, q3) (by simp)
    have hstep := serverRelayStep_not_handled relayAddr q1 st q2 q3 hq
    have ih' := ih (fun x hx => hpre x (by simp [hx]))
    simp only [List.cons_append, serverRunMappings, hstep.2, if_false,
      Bool.false_eq_true]
    rw [hstep.1]
    exact ih'

/-- Witness for C1 amended at concrete inputs: one unhandled datagram
(from a non-relay source), then the valid S3 frame, then a trailing relay
frame that is ignored. -/
theorem server_mapping_first_frame_only_witness :
    serverRunMappings ⟨.v4 5 6 7 8, 14762⟩ ⟨false, none, []⟩
      [(⟨.v4 9 9 9 9, 1000⟩, [1, 2, 3], 500),
       (⟨.v4 5 6 7 8, 14762⟩,
        [0xCE, 0xCC, 0xCC, 0xCD, 0x27, 0x10, 198, 51, 100, 9], 1500),
       (⟨.v4 5 6 7 8, 14762⟩,
        [0xCE, 0xCC, 0xCC, 0xCD, 0x4E, 0x20, 203, 0, 113, 7], 2000)] =
      (serverRelayStep ⟨.v4 5 6 7 8, 14762⟩ ⟨false, none, []⟩
        ⟨.v4 5 6 7 8, 14762⟩
        [0xCE, 0xCC, 0xCC, 0xCD, 0x27, 0x10, 198, 51, 100, 9] 1500).state ∧
    (serverRelayStep ⟨.v4 5 6 7 8, 14762⟩ ⟨false, none, []⟩
      ⟨.v4 5 6 7 8, 14762⟩
      [0xCE, 0xCC, 0xCC, 0xCD, 0x27, 0x10, 198, 51, 100, 9] 1500).state.mappings
      = insertRecords 1500
          (parseRecords
            (List.drop 4 [0xCE, 0xCC, 0xCC, 0xCD, 0x27, 0x10, 198, 51, 100, 9]))
          [] :=
  server_mapping_first_frame_only ⟨.v4 5 6 7 8, 14762⟩ ⟨false, none, []⟩
    [(⟨.v4 9 9 9 9, 1000⟩, [1, 2, 3], 500)] ⟨.v4 5 6 7 8, 14762⟩
    [0xCE, 0xCC, 0xCC, 0xCD, 0x27, 0x10, 198, 51, 100, 9] 1500
    [(⟨.v4 5 6 7 8, 14762⟩,
      [0xCE, 0xCC, 0xCC, 0xCD, 0x4E, 0x20, 203, 0, 113, 7], 2000)]
    (by decide) (by decide)

/-! ## Server startup ordering (source `server`, orchestration)

The source spawns the rendezvous/keepalive goroutine first, then the relay
receive goroutine, then blocks on the `chIp` channel, which is closed when
the first valid relay frame is decoded; only then does the main forwarding
loop begin. The orchestration is modelled as the event trace this program
order produces for a given list of datagrams received from the socket. -/

/-- Observable orchestration events of the server's startup. -/
inductive ServerEvent where
  | rendezvousStart
  | relaySkip
  | relayWarn
  | gotIp (ip : List Byte)
  | mainLoopStart
  deriving DecidableEq, Repr

/-- Events of the relay receive goroutine: a skip for each non-relay
datagram, a warning for each bad-length relay frame, and — at the first
valid relay frame — the decoded public IP (the `chIp` close) followed by
the start of the main forwarding loop, after which the trace of the
startup phase ends. -/
def serverRelayPhase (relayAddr : Addr) :
    List (Addr × List Byte) → List ServerEvent
  | [] => []
  | (src, p) :: rest =>
    if src ≠ relayAddr then .relaySkip :: serverRelayPhase relayAddr rest
    else if p.length < 4 ∨ p.length % 6 ≠ 4 then
      .relayWarn :: serverRelayPhase relayAddr rest
    else [.gotIp (decodeXorIp p), .mainLoopStart]

/-- The server's startup event trace: the rendezvous loop is spawned
before the relay receive loop starts consuming datagrams. -/
def serverOrchTrace (relayAddr : Addr) (inputs : List (Addr × List Byte)) :
    List ServerEvent :=
  .rendezvousStart :: serverRelayPhase relayAddr inputs

/-- The event an unhandled datagram produces in the relay phase. -/
def relayNoise (relayAddr : Addr) (q : Addr × List Byte) : ServerEvent :=
  if q.1 ≠ relayAddr then .relaySkip else .relayWarn

/-- On a run with no valid relay frame, the relay phase is pure noise. -/
lemma serverRelayPhase_all_noise (relayAddr : Addr)
    (inputs : List (Addr × List Byte))
    (h : ∀ q ∈ inputs, relayFrameHandled relayAddr q.1 q.2 = false) :
    serverRelayPhase relayAddr inputs = inputs.map (relayNoise relayAddr) := by
  induction inputs with
  | nil => rfl
  | cons q inputs ih =>
    obtain ⟨q1, q2⟩ := q
    have hq := of_decide_eq_false (h (q1, q2) (by simp))
    push_neg at hq
    have ih' := ih (fun x hx => h x (by simp [hx]))
    by_cases h1 : q1 = relayAddr
    · have h2 : q2.length < 4 ∨ q2.length % 6 ≠ 4 := by
        rcases Nat.lt_or_ge q2.length 4 with h3 | h3
        · exact Or.inl h3
        · exact Or.inr (hq h1 h3)
      simp [serverRelayPhase, relayNoise, h1, h2, ih']
    · simp [serverRelayPhase, relayNoise, h1, ih']

/-- C6: the rendezvous announcement loop starts before any relay reply is
processed; the main forwarding loop starts only after the first valid
relay reply, whose first four bytes XOR `0xCC` give the server's public
IPv4; with no valid reply the main loop never starts; and no unhandled
datagram can produce the `gotIp` or `mainLoopStart` events. -/
theorem server_startup_ordering (relayAddr : Addr) :
    (∀ inputs, (serverOrchTrace relayAddr inputs).head? =
      some .rendezvousStart) ∧
    (∀ pre src p rest,
      (∀ q ∈ pre, relayFrameHandled relayAddr q.1 q.2 = false) →
      relayFrameHandled relayAddr src p = true →
      serverOrchTrace relayAddr (pre ++ (src, p) :: rest) =
        .rendezvousStart :: (pre.map (relayNoise relayAddr) ++
          [.gotIp (decodeXorIp p), .mainLoopStart])) ∧
    (∀ inputs, (∀ q ∈ inputs, relayFrameHandled relayAddr q.1 q.2 = false) →
      ServerEvent.mainLoopStart ∉ serverOrchTrace relayAddr inputs) ∧
    (∀ q, relayNoise relayAddr q ≠ .mainLoopStart ∧
      ∀ ip, relayNoise relayAddr q ≠ .gotIp ip) := by
  refine ⟨fun _ => rfl, ?_, ?_, ?_⟩
  · intro pre src p rest hpre hval
    have h' := of_decide_eq_true hval
    obtain ⟨h1, h2, h3⟩ := h'
    have h4 : ¬ (p.length < 4 ∨ p.length % 6 ≠ 4) := by
      push_neg
      exact ⟨Nat.not_lt.mp (by omega), h3⟩
    unfold serverOrchTrace
    congr 1
    induction pre with
    | nil => simp [serverRelayPhase, h1, h4]
    | cons q pre ih =>
      obtain ⟨q1, q2⟩ := q
      have hq := of_decide_eq_false (hpre (q1, q2) (by simp))
      push_neg at hq
      have ih' := ih (fun x hx => hpre x (by simp [hx]))
      by_cases hq1 : q1 = relayAddr
      · have hq2 : q2.length < 4 ∨ q2.length % 6 ≠ 4 := by
          rcases Nat.lt_or_ge q2.length 4 with h5 | h5
          · exact Or.inl h5
          · exact Or.inr (hq hq1 h5)
        simp [serverRelayPhase, relayNoise, hq1, hq2, ih']
      · simp [serverRelayPhase, relayNoise, hq1, ih']
  · intro inputs h hmem
    rw [serverOrchTrace, serverRelayPhase_all_noise relayAddr inputs h] at hmem
    simp only [List.mem_cons, List.mem_map] at hmem
    rcases hmem with h1 | ⟨q, _, h2⟩
    · exact ServerEvent.noConfusion h1
    · unfold relayNoise at h2
      by_cases hq : q.1 ≠ relayAddr <;> simp [hq] at h2
  · intro q
    constructor
    · unfold relayNoise
      by_cases hq : q.1 ≠ relayAddr <;> simp [hq]
    · intro ip
      unfold relayNoise
      by_cases hq : q.1 ≠ relayAddr <;> simp [hq]

/-- Witness for C6 at concrete inputs: one non-relay datagram and one
short relay frame precede the valid S2 reply `[0xCE,0xCC,0xCC,0xCD]`,
which decodes to public IP 2.0.0.1 and is followed by the main loop
start; a run of only unhandled datagrams never starts the main loop. -/
theorem server_startup_ordering_witness :
    serverOrchTrace ⟨.v4 5 6 7 8, 14762⟩
      [(⟨.v4 9 9 9 9, 1000⟩, [0xCE, 0xCC, 0xCC, 0xCD]),
       (⟨.v4 5 6 7 8, 14762⟩, [1, 2, 3]),
       (⟨.v4 5 6 7 8, 14762⟩, [0xCE, 0xCC, 0xCC, 0xCD]),
       (⟨.v4 5 6 7 8, 14762⟩, [0, 0, 0, 0])] =
      [.rendezvousStart, .relaySkip, .relayWarn,
       .gotIp [2, 0, 0, 1], .mainLoopStart] ∧
    ServerEvent.mainLoopStart ∉
      serverOrchTrace ⟨.v4 5 6 7 8, 14762⟩
        [(⟨.v4 5 6 7 8, 14762⟩, [1, 2, 3])] := by
  constructor
  · have h := (server_startup_ordering ⟨.v4 5 6 7 8, 14762⟩).2.1
      [(⟨.v4 9 9 9 9, 1000⟩, [0xCE, 0xCC, 0xCC, 0xCD]),
       (⟨.v4 5 6 7 8, 14762⟩, [1, 2, 3])]
      ⟨.v4 5 6 7 8, 14762⟩ [0xCE, 0xCC, 0xCC, 0xCD]
      [(⟨.v4 5 6 7 8, 14762⟩, [0, 0, 0, 0])]
      (by decide) (by decide)
    exact h.trans (by decide)
  · exact (server_startup_ordering ⟨.v4 5 6 7 8, 14762⟩).2.2.1
      [(⟨.v4 5 6 7 8, 14762⟩, [1, 2, 3])] (by decide)

/-! ## Client rendezvous and punch loops (source `client`, goroutines) -/

/-- `net.IP.To4` on the model: the 4 bytes of an IPv4 address, or the
empty list (Go `nil`) for an IPv6 address. -/
def IP.to4 : IP → List Byte
  | .v4 a b c d => [a, b, c, d]
  | .v6 _ => []

/-- The client's announcement frame to the relay: the remote port as two
big-endian bytes followed by the remote IPv4
(`append([]byte{byte(port >> 8), byte(port)}, remoteAddr.IP.To4()...)`). -/
def clientRelayPayload (port : Nat) (remoteIp : IP) : List Byte :=
  (port / 256) % 256 :: port % 256 :: remoteIp.to4

/-- The sends of `k` iterations of the client's rendezvous goroutine — the
only sender running while the port-learning loop blocks. -/
def clientRendezvousSends (port : Nat) (remoteAddr relayAddr : Addr)
    (k : Nat) : List Send :=
  List.replicate k ⟨clientRelayPayload port remoteAddr.ip, relayAddr⟩

/-- The sends of `k` iterations of the client's punch goroutine, spawned
only after the port-learning loop returns: one `[0xCD]` datagram per
500 ms iteration to the remote IP at the learned port. -/
def clientPunchSends (remoteAddr : Addr) (learnedPort k : Nat) :
    List Send :=
  List.replicate k ⟨[tagPunch], ⟨remoteAddr.ip, learnedPort⟩⟩

/-- Whether a datagram makes the port-learning loop learn a port and
break: it must come from the relay and be exactly 2 bytes. -/
def learnsPort (relayAddr : Addr) (src : Addr) (payload : List Byte) :
    Bool :=
  decide (src = relayAddr ∧ payload.length = 2)

/-- A relay datagram whose length is not 2 makes the port-learning loop
print the wrong-size warning and continue. -/
lemma clientLearnStep_warn (relayAddr src : Addr) (p : List Byte)
    (h1 : src = relayAddr) (h2 : p.length ≠ 2) :
    clientLearnStep relayAddr src p = .warn := by
  subst h1
  rcases p with _ | ⟨a, _ | ⟨b, _ | ⟨c, t⟩⟩⟩ <;>
    simp [clientLearnStep] at h2 ⊢

/-- A datagram that does not learn a port leaves the learning loop's
outcome unchanged. -/
lemma clientLearn_skip (relayAddr q1 : Addr) (q2 : List Byte)
    (xs : List (Addr × List Byte))
    (h : learnsPort relayAddr q1 q2 = false) :
    clientLearn relayAddr ((q1, q2) :: xs) = clientLearn relayAddr xs := by
  have h' := of_decide_eq_false h
  push_neg at h'
  by_cases h1 : q1 = relayAddr
  · rw [clientLearn, clientLearnStep_warn relayAddr q1 q2 h1 (h' h1)]
  · rw [clientLearn]
    unfold clientLearnStep
    simp [h1]

/-- C7: before the first valid 2-byte relay reply, the only sender is the
rendezvous goroutine and none of its datagrams is the 1-byte `[0xCD]`
punch; the port-learning loop learns the big-endian port of the first
2-byte relay reply; and each subsequent punch-loop iteration sends exactly
one `[0xCD]` datagram to the remote IP at that learned port. -/
theorem client_punch_gating (relayAddr remoteAddr : Addr) (port : Nat) :
    (∀ k s, s ∈ clientRendezvousSends port remoteAddr relayAddr k →
      s.payload ≠ [tagPunch]) ∧
    (∀ pre b0 b1 rest,
      (∀ q ∈ pre, learnsPort relayAddr q.1 q.2 = false) →
      clientLearn relayAddr (pre ++ (relayAddr, [b0, b1]) :: rest) =
        some (256 * b0 + b1)) ∧
    (∀ p k, (clientPunchSends remoteAddr p k).length = k ∧
      ∀ s ∈ clientPunchSends remoteAddr p k,
        s = ⟨[tagPunch], ⟨remoteAddr.ip, p⟩⟩) := by
  refine ⟨?_, ?_, ?_⟩
  · intro k s hs
    have h := List.eq_of_mem_replicate hs
    subst h
    simp [clientRelayPayload]
  · intro pre b0 b1 rest hpre
    induction pre with
    | nil =>
      rw [List.nil_append, clientLearn]
      unfold clientLearnStep
      simp
    | cons q pre ih =>
      obtain ⟨q1, q2⟩ := q
      rw [List.cons_append,
        clientLearn_skip relayAddr q1 q2 _ (hpre (q1, q2) (by simp))]
      exact ih (fun x hx => hpre x (by simp [hx]))
  · intro p k
    refine ⟨List.length_replicate k _, fun s hs => List.eq_of_mem_replicate hs⟩

/-- Witness for C7 at concrete inputs, matching scenario S1: before the
reply the rendezvous sender emits 6-byte frames, never `[0xCD]`; two
unhandled datagrams precede the reply `[0xC3, 0x50]`, which yields port
50000; two punch iterations each send `[0xCD]` to the remote at 50000. -/
theorem client_punch_gating_witness :
    (Send.payload ⟨clientRelayPayload 34000 (IP.v4 203 0 113 7),
        ⟨.v4 5 6 7 8, 14762⟩⟩ ≠ [tagPunch]) ∧
    clientLearn ⟨.v4 5 6 7 8, 14762⟩
      [(⟨.v4 9 9 9 9, 1000⟩, [0xC3, 0x50]),
       (⟨.v4 5 6 7 8, 14762⟩, [1, 2, 3]),
       (⟨.v4 5 6 7 8, 14762⟩, [0xC3, 0x50])] = some 50000 ∧
    (clientPunchSends ⟨.v4 203 0 113 7, 34000⟩ 50000 2).length = 2 := by
  refine ⟨?_, ?_, ?_⟩
  · exact (client_punch_gating ⟨.v4 5 6 7 8, 14762⟩ ⟨.v4 203 0 113 7, 34000⟩
      34000).1 1 _ (by simp [clientRendezvousSends])
  · have h := (client_punch_gating ⟨.v4 5 6 7 8, 14762⟩
      ⟨.v4 203 0 113 7, 34000⟩ 34000).2.1
      [(⟨.v4 9 9 9 9, 1000⟩, [0xC3, 0x50]),
       (⟨.v4 5 6 7 8, 14762⟩, [1, 2, 3])] 0xC3 0x50 [] (by decide)
    exact h.trans (by norm_num)
  · exact ((client_punch_gating ⟨.v4 5 6 7 8, 14762⟩
      ⟨.v4 203 0 113 7, 34000⟩ 34000).2.2 50000 2).1

/-- C8: a relay datagram of length ≠ 2 is discarded by the client's
port-learning loop with a warning and no state change (no port is learned
from it); a relay frame of length < 4 or ≢ 4 (mod 6) is discarded by the
server's relay receive loop with a warning and no state change (the
mapping table, `ipReceived` flag and loop outcome are untouched). -/
theorem relay_frame_validation (relayAddr : Addr) :
    (∀ src p xs, src = relayAddr → p.length ≠ 2 →
      clientLearnStep relayAddr src p = .warn ∧
      clientLearn relayAddr ((src, p) :: xs) = clientLearn relayAddr xs) ∧
    (∀ (st : RelayRecvState) src p now rest, src = relayAddr →
      (p.length < 4 ∨ p.length % 6 ≠ 4) →
      serverRelayStep relayAddr st src p now = ⟨st, true, false⟩ ∧
      serverRunMappings relayAddr st ((src, p, now) :: rest) =
        serverRunMappings relayAddr st rest) := by
  constructor
  · intro src p xs h1 h2
    refine ⟨clientLearnStep_warn relayAddr src p h1 h2, ?_⟩
    apply clientLearn_skip
    simp [learnsPort, h2]
  · intro st src p now rest h1 h2
    have hstep : serverRelayStep relayAddr st src p now = ⟨st, true, false⟩ := by
      unfold serverRelayStep
      simp [h1, h2]
    refine ⟨hstep, ?_⟩
    rw [serverRunMappings, hstep]
    simp

/-- Witness for C8 at concrete inputs: a 3-byte relay datagram on the
client warns and learns nothing; a 5-byte relay frame on the server warns
and leaves the state unchanged. -/
theorem relay_frame_validation_witness :
    (clientLearnStep ⟨.v4 5 6 7 8, 14762⟩ ⟨.v4 5 6 7 8, 14762⟩ [1, 2, 3] =
      .warn ∧
     clientLearn ⟨.v4 5 6 7 8, 14762⟩
       [(⟨.v4 5 6 7 8, 14762⟩, [1, 2, 3])] =
       clientLearn ⟨.v4 5 6 7 8, 14762⟩ []) ∧
    (serverRelayStep ⟨.v4 5 6 7 8, 14762⟩ ⟨false, none, []⟩
      ⟨.v4 5 6 7 8, 14762⟩ [0, 0, 0, 0, 0] 100 =
      ⟨⟨false, none, []⟩, true, false⟩ ∧
     serverRunMappings ⟨.v4 5 6 7 8, 14762⟩ ⟨false, none, []⟩
       [(⟨.v4 5 6 7 8, 14762⟩, [0, 0, 0, 0, 0], 100)] =
       serverRunMappings ⟨.v4 5 6 7 8, 14762⟩ ⟨false, none, []⟩ []) :=
  ⟨(relay_frame_validation ⟨.v4 5 6 7 8, 14762⟩).1
      ⟨.v4 5 6 7 8, 14762⟩ [1, 2, 3] [] rfl (by decide),
   (relay_frame_validation ⟨.v4 5 6 7 8, 14762⟩).2
      ⟨false, none, []⟩ ⟨.v4 5 6 7 8, 14762⟩ [0, 0, 0, 0, 0] 100 [] rfl
      (by decide)⟩

/-! ## Server rendezvous/keepalive loop (source `server`, first goroutine) -/

/-- State of the server's keepalive goroutine: the mapping table shared
with the relay receive loop, and `flushTime`, the time of the last sweep. -/
structure KeepaliveState where
  mappings : List (addrKey × Nat)
  flushTime : Nat
  deriving DecidableEq, Repr

/-- The sweep over the mapping table: delete every entry whose timestamp
is more than `flushInterval` old (`if now.Sub(v) > flushInterval`). -/
def sweepMappings (now : Nat) (m : List (addrKey × Nat)) :
    List (addrKey × Nat) :=
  m.filter (fun kv => decide (now - kv.2 ≤ flushInterval))

/-- The server's announcement frame to the relay: the application port as
two big-endian bytes (`[]byte{byte(port >> 8), byte(port)}`). -/
def serverRelayPayload (port : Nat) : List Byte :=
  [(port / 256) % 256, port % 256]

/-- Result of one keepalive iteration: new state and the datagrams sent. -/
structure KeepaliveStep where
  state : KeepaliveState
  sends : List Send
  deriving DecidableEq, Repr

/-- One 500 ms iteration of the server's keepalive loop, mirroring the
source: if more than `flushInterval` has elapsed since `flushTime`, sweep
the stale mapping entries and reset `flushTime`; then send the relay
announcement and a 1-byte `[0xCD]` punch to every mapping currently in
the table. -/
def keepaliveIter (relayAddr : Addr) (port : Nat) (st : KeepaliveState)
    (now : Nat) : KeepaliveStep :=
  let st1 :=
    if now - st.flushTime > flushInterval then
      { mappings := sweepMappings now st.mappings, flushTime := now }
    else st
  { state := st1,
    sends := ⟨serverRelayPayload port, relayAddr⟩ ::
      st1.mappings.map (fun kv => ⟨[tagPunch], kv.1.toUDP⟩) }

/-- C5 counterexample: a transmission pass at `now = 12000` ms with
`flushTime = 5000` (so only 7 s since the last sweep) still punches the
mapping entry for 198.51.100.9:10000 whose timestamp 0 is 12 s old — the
sweep is not run before every pass, only when more than 10 s elapsed
since the previous one, so an entry older than 10 s is sent `[0xCD]`. -/
theorem keepalive_stale_punch_counterexample :
    mapLookup ⟨198, 51, 100, 9, 10000⟩
      (KeepaliveState.mk [(⟨198, 51, 100, 9, 10000⟩, 0)] 5000).mappings =
      some 0 ∧
    12000 - 0 > flushInterval ∧
    Send.mk [tagPunch] (addrKey.toUDP ⟨198, 51, 100, 9, 10000⟩) ∈
      (keepaliveIter ⟨.v4 5 6 7 8, 14762⟩ 7000
        (KeepaliveState.mk [(⟨198, 51, 100, 9, 10000⟩, 0)] 5000)
        12000).sends := by
  refine ⟨rfl, by norm_num [flushInterval], ?_⟩
  simp [keepaliveIter, flushInterval, sweepMappings, addrKey.toUDP]

/-- C5 amended: the sweep runs only on a transmission pass where more
than 10 s has elapsed since the previous sweep; on such a pass every
punched endpoint comes from a mapping entry of the current table whose
timestamp is at most 10 s old (stale entries are swept before sending). -/
theorem keepalive_sweep_before_pass (relayAddr : Addr) (port : Nat)
    (st : KeepaliveState) (now : Nat)
    (hflush : now - st.flushTime > flushInterval) :
    ∀ s ∈ (keepaliveIter relayAddr port st now).sends,
      s.payload = [tagPunch] →
      ∃ kv ∈ st.mappings, s.dest = kv.1.toUDP ∧ now - kv.2 ≤ flushInterval := by
  intro s hs hpay
  unfold keepaliveIter at hs
  simp only [hflush, if_pos, List.mem_cons, List.mem_map] at hs
  rcases hs with h1 | ⟨kv, hkv, h2⟩
  · exfalso
    rw [h1] at hpay
    simp [serverRelayPayload] at hpay
  · have hmem : kv ∈ st.mappings ∧ now - kv.2 ≤ flushInterval := by
      have := List.mem_filter.mp hkv
      exact ⟨this.1, of_decide_eq_true this.2⟩
    exact ⟨kv, hmem.1, by rw [← h2], hmem.2⟩

/-- Witness for C5 amended at a concrete pass: at `now = 12000` with
`flushTime = 1000` the sweep fires; the stale entry (timestamp 0) is
removed and the surviving entry (timestamp 11500) is punched, and that
punch target's entry is at most 10 s old. -/
theorem keepalive_sweep_before_pass_witness :
    ∃ kv ∈ (KeepaliveState.mk
        [(⟨198, 51, 100, 9, 10000⟩, 0), (⟨203, 0, 113, 7, 20000⟩, 11500)]
        1000).mappings,
      Send.dest ⟨[tagPunch], addrKey.toUDP ⟨203, 0, 113, 7, 20000⟩⟩ =
        kv.1.toUDP ∧ 12000 - kv.2 ≤ flushInterval :=
  keepalive_sweep_before_pass ⟨.v4 5 6 7 8, 14762⟩ 7000
    (KeepaliveState.mk
      [(⟨198, 51, 100, 9, 10000⟩, 0), (⟨203, 0, 113, 7, 20000⟩, 11500)]
      1000) 12000 (by norm_num [flushInterval])
    ⟨[tagPunch], addrKey.toUDP ⟨203, 0, 113, 7, 20000⟩⟩
    (by simp [keepaliveIter, flushInterval, sweepMappings, addrKey.toUDP])
    rfl

/-! ## Server main forwarding loop (source `server`, after `<-chIp`) -/

/-- `addrValue` from the source: a peer record, holding the identifier of
its owned per-peer loopback socket and its last-activity timestamp. -/
structure PeerRec where
  sock : Nat
  last : Nat
  deriving DecidableEq, Repr

/-- State of the server's main forwarding loop: the `peers` table, the
time of the last idle sweep, and the allocator counter providing fresh
loopback socket identifiers. -/
structure ServerMainState where
  peers : List (addrKey × PeerRec)
  flushTime : Nat
  nextSock : Nat
  deriving DecidableEq, Repr

/-- Observable effects of the server's main loop and eviction paths. All
loopback writes are destined for `127.0.0.1:<application port>`. -/
inductive Effect where
  | warnSize
  | logTimeout (k : addrKey)
  | logReadFail (k : addrKey)
  | closeSock (sock : Nat)
  | writeLoopback (sock : Nat) (payload : List Byte)
  | logNewPeer (k : addrKey)
  | fatalExit
  deriving DecidableEq, Repr

/-- `newAddrKey` from the source: the 4-byte `To4` form of the source IP
plus the port (the zero array for a non-IPv4 address). -/
def newAddrKey (a : Addr) : addrKey :=
  match a.ip with
  | .v4 x y z w => ⟨x, y, z, w, a.port⟩
  | .v6 _ => ⟨0, 0, 0, 0, a.port⟩

/-- The idle sweep over the peers table (source: log the disconnect,
`delete(peers, k)`, then `v.c.Close()` for every peer whose last activity
is more than `flushInterval` old). Returns the surviving peers and the
effects of the evictions. -/
def sweepPeers (now : Nat) :
    List (addrKey × PeerRec) → List (addrKey × PeerRec) × List Effect
  | [] => ([], [])
  | (k, v) :: rest =>
    let s := sweepPeers now rest
    if now - v.last > flushInterval then
      (s.1, .logTimeout k :: .closeSock v.sock :: s.2)
    else ((k, v) :: s.1, s.2)

/-- The input consumed by one main-loop iteration: the time sampled at
the top of the loop, the received datagram's source and payload, the time
sampled when stamping `last`, and whether `net.ListenUDP` succeeds if a
per-peer loopback socket must be allocated. -/
structure MainInput where
  now : Nat
  src : Addr
  payload : List Byte
  tStamp : Nat
  allocOk : Bool
  deriving DecidableEq, Repr

/-- Result of one main-loop iteration: new state, effects in program
order, and whether the iteration aborted the engine (`log.Fatal`). -/
structure MainStep where
  state : ServerMainState
  effects : List Effect
  aborted : Bool
  deriving DecidableEq, Repr

/-- One iteration of the server's main forwarding loop, mirroring the
source: run the idle sweep if more than `flushInterval` elapsed since the
last one; then classify the received datagram — warn and drop if oversize,
drop silently if from the relay; for a known peer, forward the bytes after
a `0xCC` tag to the peer's loopback socket (when the payload is non-empty
and so tagged) and stamp its last-activity time; for an unknown peer, log
it, allocate a loopback socket (aborting via `log.Fatal` if the
allocation fails) and insert the new peer record. -/
def serverMainIter (relayAddr : Addr) (st : ServerMainState)
    (inp : MainInput) : MainStep :=
  let swept :=
    if inp.now - st.flushTime > flushInterval then
      let s := sweepPeers inp.now st.peers
      ({ st with peers := s.1, flushTime := inp.now }, s.2)
    else (st, ([] : List Effect))
  let st1 := swept.1
  let effs1 := swept.2
  if inp.payload.length > 4095 then ⟨st1, effs1 ++ [.warnSize], false⟩
  else if inp.src = relayAddr then ⟨st1, effs1, false⟩
  else
    let k := newAddrKey inp.src
    match mapLookup k st1.peers with
    | some v =>
      let effs2 :=
        if inp.payload.length ≠ 0 ∧ inp.payload.head? = some tagData then
          [Effect.writeLoopback v.sock inp.payload.tail]
        else []
      ⟨{ st1 with peers := mapInsert k ⟨v.sock, inp.tStamp⟩ st1.peers },
        effs1 ++ effs2, false⟩
    | none =>
      if inp.allocOk then
        ⟨{ st1 with
            peers := mapInsert k ⟨st1.nextSock, inp.tStamp⟩ st1.peers,
            nextSock := st1.nextSock + 1 },
          effs1 ++ [.logNewPeer k], false⟩
      else
        ⟨st1, effs1 ++ [.logNewPeer k, .fatalExit], true⟩

/-- The server's main forwarding loop over a list of received datagrams.
Each iteration is driven by one blocking `ReadFromUDP` returning, so the
run consumes exactly one input per iteration; it stops early only if an
iteration aborts the engine. -/
def serverMainRun (relayAddr : Addr) (st : ServerMainState) :
    List MainInput → ServerMainState × List Effect
  | [] => (st, [])
  | inp :: rest =>
    let s := serverMainIter relayAddr st inp
    if s.aborted then (s.state, s.effects)
    else
      let r := serverMainRun relayAddr s.state rest
      (r.1, s.effects ++ r.2)

/-- Inserting at a key already present does not change the key set. -/
lemma mapInsert_keys_of_lookup {K V : Type} [DecidableEq K]
    (k : K) (w : V) (l : List (K × V)) (v : V)
    (h : mapLookup k l = some v) :
    (mapInsert k w l).map Prod.fst = l.map Prod.fst := by
  induction l with
  | nil => simp [mapLookup] at h
  | cons q rest ih =>
    obtain ⟨k0, v0⟩ := q
    rw [mapLookup] at h
    rw [mapInsert]
    by_cases h0 : k0 = k
    · rw [if_pos h0]
      simp [h0]
    · rw [if_neg h0] at h ⊢
      simp [ih h]

/-- C4 counterexample: after startup, the arrival of a first datagram
from a new peer while `net.ListenUDP` fails makes the iteration run
`log.Fatal` — the engine aborts on a data-plane input, logging the new
peer and then exiting fatally. -/
theorem server_alloc_failure_aborts :
    (serverMainIter ⟨.v4 5 6 7 8, 14762⟩ ⟨[], 0, 0⟩
      ⟨100, ⟨.v4 198 51 100 9, 10000⟩, [0xCD], 100, false⟩).aborted = true ∧
    (serverMainIter ⟨.v4 5 6 7 8, 14762⟩ ⟨[], 0, 0⟩
      ⟨100, ⟨.v4 198 51 100 9, 10000⟩, [0xCD], 100, false⟩).effects =
      [.logNewPeer ⟨198, 51, 100, 9, 10000⟩, .fatalExit] := by
  decide

/-- C4 amended: after startup, no data-plane input aborts the engine
except a failure to allocate the per-peer loopback socket when a new
peer's first datagram arrives, which aborts via `log.Fatal`; whenever the
allocation succeeds (and on every input needing no allocation) the
iteration only logs and continues. -/
theorem server_abort_only_on_alloc_failure (relayAddr : Addr)
    (st : ServerMainState) (inp : MainInput) (h : inp.allocOk = true) :
    (serverMainIter relayAddr st inp).aborted = false := by
  unfold serverMainIter
  simp only [h]
  split
  · rfl
  · split
    · rfl
    · split
      · rfl
      · simp

/-- Witness for C4 amended: the same new-peer datagram with a succeeding
allocation does not abort. -/
theorem server_abort_only_on_alloc_failure_witness :
    (serverMainIter ⟨.v4 5 6 7 8, 14762⟩ ⟨[], 0, 0⟩
      ⟨100, ⟨.v4 198 51 100 9, 10000⟩, [0xCD], 100, true⟩).aborted = false :=
  server_abort_only_on_alloc_failure ⟨.v4 5 6 7 8, 14762⟩ ⟨[], 0, 0⟩
    ⟨100, ⟨.v4 198 51 100 9, 10000⟩, [0xCD], 100, true⟩ rfl

/-- C9: for a datagram from a peer already in the table whose first byte
is not `0xCC` (such as the 1-byte `0xCD` punch), on an iteration whose
sweep does not fire, the only state change is the refresh of the peer's
last-activity timestamp: no effect is emitted (in particular nothing is
written to the peer's loopback socket), the engine does not abort, and
the key set of the peers table is unchanged. -/
theorem server_known_peer_nondata_tag (relayAddr : Addr)
    (st : ServerMainState) (inp : MainInput) (v : PeerRec)
    (hsweep : inp.now - st.flushTime ≤ flushInterval)
    (hsize : inp.payload.length ≤ 4095)
    (hsrc : inp.src ≠ relayAddr)
    (hpeer : mapLookup (newAddrKey inp.src) st.peers = some v)
    (_hne : inp.payload ≠ [])
    (htag : inp.payload.head? ≠ some tagData) :
    serverMainIter relayAddr st inp =
      ⟨{ st with
          peers := mapInsert (newAddrKey inp.src) ⟨v.sock, inp.tStamp⟩
            st.peers },
        [], false⟩ ∧
    (mapInsert (newAddrKey inp.src) ⟨v.sock, inp.tStamp⟩ st.peers).map
        Prod.fst = st.peers.map Prod.fst := by
  refine ⟨?_, mapInsert_keys_of_lookup _ _ _ _ hpeer⟩
  unfold serverMainIter
  have h1 : ¬ (inp.now - st.flushTime > flushInterval) := by omega
  have h2 : ¬ (inp.payload.length > 4095) := by omega
  have h3 : ¬ (inp.payload.length ≠ 0 ∧ inp.payload.head? = some tagData) :=
    fun hc => htag hc.2
  simp [h1, h2, hsrc, hpeer, h3]
  intro _
  exact htag

/-- Witness for C9: a known peer's `[0xCD]` punch only refreshes `last`. -/
theorem server_known_peer_nondata_tag_witness :
    serverMainIter ⟨.v4 5 6 7 8, 14762⟩
      ⟨[(⟨198, 51, 100, 9, 10000⟩, ⟨0, 400⟩)], 0, 1⟩
      ⟨500, ⟨.v4 198 51 100 9, 10000⟩, [0xCD], 500, true⟩ =
      ⟨⟨[(⟨198, 51, 100, 9, 10000⟩, ⟨0, 500⟩)], 0, 1⟩, [], false⟩ := by
  have h := (server_known_peer_nondata_tag ⟨.v4 5 6 7 8, 14762⟩
    ⟨[(⟨198, 51, 100, 9, 10000⟩, ⟨0, 400⟩)], 0, 1⟩
    ⟨500, ⟨.v4 198 51 100 9, 10000⟩, [0xCD], 500, true⟩ ⟨0, 400⟩
    (by norm_num [flushInterval]) (by norm_num) (by decide) (by decide)
    (by decide) (by decide)).1
  exact h.trans (by decide)

/-- C10: each iteration of the main forwarding loop — including its idle
sweep, which sits at the top of the loop body — is driven by one blocking
`ReadFromUDP` returning; if no datagram arrives on the public socket the
loop stays blocked, so the state is unchanged, every peer stays in the
table no matter how much wall-clock time passes, and no owned loopback
socket is closed by the sweeper. -/
theorem server_sweep_requires_receive (relayAddr : Addr)
    (st : ServerMainState) (k : addrKey) (v : PeerRec)
    (hpeer : mapLookup k st.peers = some v) :
    serverMainRun relayAddr st [] = (st, []) ∧
    mapLookup k (serverMainRun relayAddr st []).1.peers = some v ∧
    Effect.closeSock v.sock ∉ (serverMainRun relayAddr st []).2 := by
  exact ⟨rfl, by simpa [serverMainRun] using hpeer, by simp [serverMainRun]⟩

/-- Witness for C10: a peer 11 s idle survives an empty run. -/
theorem server_sweep_requires_receive_witness :
    serverMainRun ⟨.v4 5 6 7 8, 14762⟩
      ⟨[(⟨198, 51, 100, 9, 10000⟩, ⟨0, 0⟩)], 0, 1⟩ [] =
      (⟨[(⟨198, 51, 100, 9, 10000⟩, ⟨0, 0⟩)], 0, 1⟩, []) ∧
    mapLookup ⟨198, 51, 100, 9, 10000⟩
      (serverMainRun ⟨.v4 5 6 7 8, 14762⟩
        ⟨[(⟨198, 51, 100, 9, 10000⟩, ⟨0, 0⟩)], 0, 1⟩ []).1.peers =
      some ⟨0, 0⟩ ∧
    Effect.closeSock 0 ∉
      (serverMainRun ⟨.v4 5 6 7 8, 14762⟩
        ⟨[(⟨198, 51, 100, 9, 10000⟩, ⟨0, 0⟩)], 0, 1⟩ []).2 :=
  server_sweep_requires_receive ⟨.v4 5 6 7 8, 14762⟩
    ⟨[(⟨198, 51, 100, 9, 10000⟩, ⟨0, 0⟩)], 0, 1⟩
    ⟨198, 51, 100, 9, 10000⟩ ⟨0, 0⟩ rfl

/-! ## Peer eviction paths (source `server`, sweep and per-peer task)

Two parties may evict a peer record and close its owned loopback socket:
the idle sweeper inside the main loop, and the per-peer receive task when
its blocking read fails. The primitive actions each path performs, in
the program order of the source, are modelled explicitly, and the joint
behaviour of the two paths is analysed for serialized executions. -/

/-- The primitive actions an eviction path performs. -/
inductive EvictAct where
  | log (k : addrKey)
  | removePeer (k : addrKey)
  | closeSock (sock : Nat)
  deriving DecidableEq, Repr

/-- Action sequence of the idle sweeper for a stale peer `k` owning
socket `s`, in source order: print the disconnect, `delete(peers, k)`,
then `v.c.Close()`. -/
def sweeperEvictActs (k : addrKey) (s : Nat) : List EvictAct :=
  [.log k, .removePeer k, .closeSock s]

/-- Action sequence of the per-peer receive task when a read error finds
`k` still present, in source order: print the disconnect,
`cLocal.Close()`, then `delete(peers, addrKey)`. -/
def peerTaskEvictActs (k : addrKey) (s : Nat) : List EvictAct :=
  [.log k, .closeSock s, .removePeer k]

/-- Index of the first occurrence of an action in a sequence. -/
def firstIdx (a : EvictAct) (acts : List EvictAct) : Nat :=
  acts.findIdx (fun x => x == a)

/-- C2 counterexample: on the per-peer receive task's eviction path, the
socket close occurs strictly before the removal from the peers table —
the claim that whichever party closes the socket removes the record
before closing is false for that party. -/
theorem peer_task_closes_before_removing :
    firstIdx (.closeSock 3) (peerTaskEvictActs ⟨198, 51, 100, 9, 10000⟩ 3) <
      firstIdx (.removePeer ⟨198, 51, 100, 9, 10000⟩)
        (peerTaskEvictActs ⟨198, 51, 100, 9, 10000⟩ 3) ∧
    firstIdx (.removePeer ⟨198, 51, 100, 9, 10000⟩)
        (sweeperEvictActs ⟨198, 51, 100, 9, 10000⟩ 3) <
      firstIdx (.closeSock 3) (sweeperEvictActs ⟨198, 51, 100, 9, 10000⟩ 3) := by
  decide

/-- The per-peer receive task's reaction to a read error, as one atomic
action on the peers table: if `k` is still present, log, close its socket
and remove the record; otherwise do nothing and exit. -/
def taskEvict (k : addrKey) (ps : List (addrKey × PeerRec)) :
    List (addrKey × PeerRec) × List Effect :=
  match mapLookup k ps with
  | some v => (mapErase k ps, [.logReadFail k, .closeSock v.sock])
  | none => (ps, [])

/-- Number of closes of socket `s` in a list of effects. -/
def countClose (s : Nat) (effs : List Effect) : Nat :=
  effs.count (Effect.closeSock s)

lemma countClose_append (s : Nat) (a b : List Effect) :
    countClose s (a ++ b) = countClose s a + countClose s b := by
  simp [countClose, List.count_append]

/-- A key absent from the key set looks up to nothing. -/
lemma mapLookup_none_of_forall {K V : Type} [DecidableEq K]
    (k : K) (l : List (K × V)) (h : ∀ q ∈ l, q.1 ≠ k) :
    mapLookup k l = none := by
  induction l with
  | nil => rfl
  | cons q rest ih =>
    obtain ⟨k0, v0⟩ := q
    rw [mapLookup, if_neg (h (k0, v0) (by simp))]
    exact ih (fun x hx => h x (by simp [hx]))

/-- Membership in an erased table implies prior membership at another key. -/
lemma mem_of_mem_mapErase {K V : Type} [DecidableEq K]
    (k : K) (l : List (K × V)) (q : K × V) (h : q ∈ mapErase k l) :
    q ∈ l ∧ q.1 ≠ k := by
  induction l with
  | nil => simp [mapErase] at h
  | cons p rest ih =>
    obtain ⟨k0, v0⟩ := p
    rw [mapErase] at h
    by_cases h0 : k0 = k
    · rw [if_pos h0] at h
      exact ⟨List.mem_cons_of_mem _ (ih h).1, (ih h).2⟩
    · rw [if_neg h0] at h
      rcases List.mem_cons.mp h with h1 | h1
      · subst h1
        exact ⟨List.mem_cons_self _ _, h0⟩
      · exact ⟨List.mem_cons_of_mem _ (ih h1).1, (ih h1).2⟩

/-- Sweep survivors were already in the table. -/
lemma mem_of_mem_sweepPeers (now : Nat) (l : List (addrKey × PeerRec))
    (q : addrKey × PeerRec) (h : q ∈ (sweepPeers now l).1) : q ∈ l := by
  induction l with
  | nil => simp [sweepPeers] at h
  | cons p rest ih =>
    obtain ⟨k0, v0⟩ := p
    rw [sweepPeers] at h
    by_cases hst : now - v0.last > flushInterval
    · rw [if_pos hst] at h
      exact List.mem_cons_of_mem _ (ih h)
    · rw [if_neg hst] at h
      rcases List.mem_cons.mp h with h1 | h1
      · exact h1 ▸ List.mem_cons_self _ _
      · exact List.mem_cons_of_mem _ (ih h1)

/-- The sweep closes no socket that no table entry owns. -/
lemma countClose_sweep_zero (s now : Nat) (l : List (addrKey × PeerRec))
    (h : ∀ q ∈ l, PeerRec.sock q.2 ≠ s) :
    countClose s (sweepPeers now l).2 = 0 := by
  induction l with
  | nil => rfl
  | cons q rest ih =>
    obtain ⟨k0, v0⟩ := q
    have hs := h (k0, v0) (by simp)
    have ih' := ih (fun x hx => h x (by simp [hx]))
    rw [sweepPeers]
    by_cases hst : now - v0.last > flushInterval
    · rw [if_pos hst]
      simp only [countClose, List.count_cons] at ih' ⊢
      simp [ih', hs]
    · rw [if_neg hst]
      exact ih'

/-- On a table with distinct keys containing a stale entry `k ↦ v` whose
socket no other entry owns, the sweep closes `v.sock` exactly once and
removes `k`. -/
lemma countClose_sweep_one (now : Nat) (ps : List (addrKey × PeerRec))
    (k : addrKey) (v : PeerRec)
    (hnodup : (ps.map Prod.fst).Nodup)
    (hmem : mapLookup k ps = some v)
    (huniq : ∀ q ∈ ps, PeerRec.sock q.2 = v.sock → q.1 = k)
    (hstale : now - v.last > flushInterval) :
    countClose v.sock (sweepPeers now ps).2 = 1 ∧
    mapLookup k (sweepPeers now ps).1 = none := by
  induction ps with
  | nil => simp [mapLookup] at hmem
  | cons q rest ih =>
    obtain ⟨k0, v0⟩ := q
    rw [List.map_cons, List.nodup_cons] at hnodup
    by_cases hk : k0 = k
    · subst hk
      rw [mapLookup, if_pos rfl] at hmem
      have hv : v0 = v := by injection hmem
      subst hv
      rw [sweepPeers, if_pos hstale]
      have hrest : ∀ q ∈ rest, PeerRec.sock q.2 ≠ v0.sock := by
        intro q hq hsq
        have h1 := huniq q (List.mem_cons_of_mem _ hq) hsq
        have h2 : q.1 ∈ rest.map Prod.fst := List.mem_map_of_mem Prod.fst hq
        rw [h1] at h2
        exact hnodup.1 h2
      constructor
      · have h0 := countClose_sweep_zero v0.sock now rest hrest
        simp only [countClose, List.count_cons] at h0 ⊢
        simp [h0]
      · apply mapLookup_none_of_forall
        intro q hq hqk
        have hq' := mem_of_mem_sweepPeers now rest q hq
        have h2 : q.1 ∈ rest.map Prod.fst := List.mem_map_of_mem Prod.fst hq'
        rw [hqk] at h2
        exact hnodup.1 h2
    · rw [mapLookup, if_neg hk] at hmem
      have ih' := ih hnodup.2 hmem
        (fun x hx hsx => huniq x (List.mem_cons_of_mem _ hx) hsx)
      have hs0 : v0.sock ≠ v.sock :=
        fun h => hk (huniq (k0, v0) (by simp) h)
      rw [sweepPeers]
      by_cases hst : now - v0.last > flushInterval
      · rw [if_pos hst]
        constructor
        · simp only [countClose, List.count_cons] at ih' ⊢
          simp [ih'.1, hs0]
        · exact ih'.2
      · rw [if_neg hst]
        refine ⟨ih'.1, ?_⟩
        rw [mapLookup, if_neg hk]
        exact ih'.2

/-- C2 amended: when the two eviction paths execute atomically (each
path's table check, update and close taken as one step), the peer's owned
loopback socket is closed exactly once in either serialization — the
sweeper removes the record before closing while the receive task,
guarded by its membership check, closes before removing — and whichever
party runs second finds the record gone and does not close again. -/
theorem peer_socket_closed_once (now : Nat)
    (ps : List (addrKey × PeerRec)) (k : addrKey) (v : PeerRec)
    (hnodup : (ps.map Prod.fst).Nodup)
    (hmem : mapLookup k ps = some v)
    (huniq : ∀ q ∈ ps, PeerRec.sock q.2 = v.sock → q.1 = k)
    (hstale : now - v.last > flushInterval) :
    countClose v.sock
      ((sweepPeers now ps).2 ++ (taskEvict k (sweepPeers now ps).1).2) = 1 ∧
    countClose v.sock
      ((taskEvict k ps).2 ++ (sweepPeers now (taskEvict k ps).1).2) = 1 := by
  have hsweep := countClose_sweep_one now ps k v hnodup hmem huniq hstale
  constructor
  · rw [countClose_append, hsweep.1]
    rw [taskEvict, hsweep.2]
    rfl
  · rw [countClose_append, taskEvict, hmem]
    have hz : countClose v.sock (sweepPeers now (mapErase k ps)).2 = 0 := by
      apply countClose_sweep_zero
      intro q hq hsq
      have hq' := mem_of_mem_mapErase k ps q hq
      exact hq'.2 (huniq q hq'.1 hsq)
    rw [hz]
    simp [countClose, List.count_cons]

/-- Witness for C2 amended on a concrete two-peer table: whichever path
evicts the stale peer first, its socket is closed exactly once. -/
theorem peer_socket_closed_once_witness :
    countClose 3
      ((sweepPeers 12000
          [(⟨198, 51, 100, 9, 10000⟩, ⟨3, 0⟩),
           (⟨203, 0, 113, 7, 20000⟩, ⟨4, 11500⟩)]).2 ++
        (taskEvict ⟨198, 51, 100, 9, 10000⟩
          (sweepPeers 12000
            [(⟨198, 51, 100, 9, 10000⟩, ⟨3, 0⟩),
             (⟨203, 0, 113, 7, 20000⟩, ⟨4, 11500⟩)]).1).2) = 1 ∧
    countClose 3
      ((taskEvict ⟨198, 51, 100, 9, 10000⟩
          [(⟨198, 51, 100, 9, 10000⟩, ⟨3, 0⟩),
           (⟨203, 0, 113, 7, 20000⟩, ⟨4, 11500⟩)]).2 ++
        (sweepPeers 12000
          (taskEvict ⟨198, 51, 100, 9, 10000⟩
            [(⟨198, 51, 100, 9, 10000⟩, ⟨3, 0⟩),
             (⟨203, 0, 113, 7, 20000⟩, ⟨4, 11500⟩)]).1).2) = 1 :=
  peer_socket_closed_once 12000
    [(⟨198, 51, 100, 9, 10000⟩, ⟨3, 0⟩),
     (⟨203, 0, 113, 7, 20000⟩, ⟨4, 11500⟩)]
    ⟨198, 51, 100, 9, 10000⟩ ⟨3, 0⟩ (by decide) (by decide) (by decide)
    (by norm_num [flushInterval])

end ProxyPunch
